import Mathlib

/-!
# Drizzle Chronicle — shallow embedding and verification

This file embeds the core of the `Chronicle` class (temporal database
wrapper over better-sqlite3) in Lean 4 and proves the specified
properties of schema derivation, table registration, the three
intercepted mutations (insert / update / delete), version retrieval and
rollback.

The store is modelled explicitly: a live table is a list of rows over a
declared schema (column name together with its default value), a
history table is an append-only list of version rows with an
auto-increment counter and a creation clock.  Rows are association
lists from column name to value in column order, matching what a
`SELECT *` over SQLite returns and what the JavaScript row objects
hold.  The SQL statements of the source are translated one by one:
`INSERT` appends a row, `UPDATE ... WHERE` rewrites every matching row,
`DELETE ... WHERE` removes every matching row, a `WHERE` conjunction of
equalities never matches a `NULL` parameter, `.get` takes the first
matching row, and a statement against a table that does not exist fails
with the storage layer's missing-table error.  Exceptions are modelled
by `Except`: an error carries no successor state, matching the source,
where every thrown operation has performed no prior write (reads only).

The SQL layer is an external collaborator: statements that are
syntactically malformed (an empty constraint or column list) or that
name a column absent from the table's schema fail inside SQLite before
any semantics applies; theorems therefore scope their statements with
well-formedness hypotheses (non-empty maps, column names drawn from the
schema) instead of modelling SQL parsing.  All operations are modelled
under the default configuration (`autoCreateHistoryTables = true`),
which every claim concerns.
-/

namespace Chronicle

/-- A SQLite storage value: `NULL`, an integer, or a text value.
(`REAL` and `BLOB` values behave identically to these for every
verified property.) -/
inductive Val where
  | null
  | int (n : Int)
  | str (s : String)
deriving DecidableEq, Repr

/-- A row as returned by `SELECT *` (and as held by a JS object):
column name / value pairs in column order. -/
abbrev Row := List (String × Val)

/-- Lookup of a column in a row (first occurrence, as in a JS object). -/
def Row.get (r : Row) (k : String) : Option Val :=
  (r.find? (fun p => p.1 = k)).map (·.2)

/-- `UPDATE ... SET` applied to one row: every column named in `vs` is
overwritten, the others are kept. -/
def Row.setMany (r : Row) (vs : Row) : Row :=
  r.map (fun p => match Row.get vs p.1 with
    | some v => (p.1, v)
    | none => p)

/-- JavaScript object spread `{...a, ...b}`: the keys of `a` in order
with the values of `b` winning on overlap, followed by the keys of `b`
absent from `a`, in their order. -/
def spreadMerge (a b : Row) : Row :=
  Row.setMany a b ++ b.filter (fun p => (Row.get a p.1).isNone)

/-- A conjunction of SQL equality constraints `col = ?`.  A `NULL`
parameter never matches (SQL three-valued logic); otherwise the row
must hold exactly the given value. -/
def rowMatches (pred : Row) (r : Row) : Bool :=
  pred.all (fun p => !(p.2 = Val.null) && Row.get r p.1 = some p.2)

/-- The three mutation kinds recorded in history
(`VersionOperation = "INSERT" | "UPDATE" | "DELETE"`). -/
inductive Operation where
  | insert
  | update
  | delete
deriving DecidableEq, Repr

/-- The text stored in the `version_operation` column. -/
def Operation.toStr : Operation → String
  | .insert => "INSERT"
  | .update => "UPDATE"
  | .delete => "DELETE"

/-- One row of a history table.  `version_id` is assigned by the
store's auto-increment counter and `version_created_at` by its clock;
`attrs` holds exactly the columns supplied to `recordVersion`
(history columns never supplied read back as `NULL`). -/
structure HistoryRow where
  version_id : Nat
  version_created_at : Nat
  version_operation : Operation
  attrs : Row
deriving DecidableEq, Repr

/-- A history table: the live-derived column names of its schema in
declared order, the auto-increment counter, and the version rows in
insertion order. -/
structure HistoryTable where
  liveColumns : List String
  nextId : Nat
  rows : List HistoryRow
deriving DecidableEq, Repr

/-- A live table: its schema as (column name, default value) pairs in
declared order — the default is what the store fills in for a column
absent from an `INSERT` — and its current rows. -/
structure LiveTable where
  schema : List (String × Val)
  rows : List Row
deriving DecidableEq, Repr

/-- The errors surfaced by the engine and by the storage layer.  The
first four correspond to the `Error`s thrown by the source
(`Table ... is not registered for versioning`, `Record not found`,
`Version ... not found`, `Invalid column definition for ...`);
`noSuchTable` is better-sqlite3's error for preparing a statement
against a missing table. -/
inductive ChronicleError where
  | notRegistered (name : String)
  | recordNotFound
  | versionNotFound (id : Nat)
  | invalidColumn (key : String)
  | noSuchTable (name : String)
deriving DecidableEq, Repr

/-- The engine state: the configured history suffix, the registered
live-table names (the keys of the `versionedTables` map), and the
storage: live tables and history tables by name, plus the store's
clock supplying `version_created_at`. -/
structure ChronicleState where
  suffix : String
  registered : List String
  live : List (String × LiveTable)
  history : List (String × HistoryTable)
  clock : Nat
deriving DecidableEq, Repr

/-- Lookup of a table by name in the store. -/
def lookupTable {α : Type} (l : List (String × α)) (n : String) : Option α :=
  (l.find? (fun p => p.1 = n)).map (·.2)

/-- Replace the table bound to name `n`, leaving other bindings as they
are. -/
def setTable {α : Type} (l : List (String × α)) (n : String) (v : α) :
    List (String × α) :=
  l.map (fun p => if p.1 = n then (n, v) else p)

/-! ## Schema derivation (`createHistoryTable`) -/

/-- The SQLite column type emitted into the generated `CREATE TABLE`
statement: the four storage classes, plus the three distinguished
metadata column types (`INTEGER PRIMARY KEY AUTOINCREMENT`,
`TEXT NOT NULL DEFAULT CURRENT_TIMESTAMP`, and the `TEXT NOT NULL`
column checked against the three operation literals). -/
inductive SqlColType where
  | integer
  | real
  | text
  | blob
  | idAutoIncrement
  | timestampNow
  | operationEnum
deriving DecidableEq, Repr

/-- A Drizzle column descriptor as the source probes it: the table
property is treated as a column only when it exposes a `name`, and its
`dataType` / `columnType` decide the SQLite storage class. -/
structure ColDesc where
  name : Option String
  dataType : Option String
  columnType : Option String
deriving DecidableEq, Repr

/-- The storage-class mapping of `createHistoryTable`: integer, real,
text and blob are recognized; anything else defaults to `TEXT`. -/
def colSqliteType (c : ColDesc) : SqlColType :=
  if c.dataType = some "integer" ∨ c.columnType = some "SQLiteInteger" then .integer
  else if c.dataType = some "real" ∨ c.columnType = some "SQLiteReal" then .real
  else if c.dataType = some "text" ∨ c.columnType = some "SQLiteText" then .text
  else if c.dataType = some "blob" ∨ c.columnType = some "SQLiteBlob" then .blob
  else .text

/-- The column derivation of `createHistoryTable`: properties lacking a
`name` are first filtered out, then each surviving descriptor is mapped
to `(name, storage class)`, with the source's `Invalid column
definition` throw for a nameless descriptor kept in place inside the
map. -/
def createHistoryColumns (descs : List ColDesc) :
    Except ChronicleError (List (String × SqlColType)) :=
  let columns := descs.filter (fun c => c.name.isSome)
  columns.mapM (fun c =>
    match c.name with
    | none => .error (.invalidColumn (c.columnType.getD ""))
    | some n => .ok (n, colSqliteType c))

/-- The three metadata column definitions, in the order the generated
`CREATE TABLE` statement lists them. -/
def metadataColumnDefs : List (String × SqlColType) :=
  [("version_id", .idAutoIncrement),
   ("version_created_at", .timestampNow),
   ("version_operation", .operationEnum)]

/-- The full ordered column list of the generated history table: the
source's `CREATE TABLE` statement places the three metadata columns
first and the derived live columns after them. -/
def historyColumnDefs (descs : List ColDesc) :
    Except ChronicleError (List (String × SqlColType)) :=
  (createHistoryColumns descs).map (fun cols => metadataColumnDefs ++ cols)

/-- Modelled from the spec, for comparison with `historyColumnDefs`:
"history relation = live columns in declared order, followed by
`version_id`, `version_created_at`, `version_operation`". -/
def specHistoryColumnDefs (descs : List ColDesc) :
    Except ChronicleError (List (String × SqlColType)) :=
  (createHistoryColumns descs).map (fun cols => cols ++ metadataColumnDefs)

/-- `registerTable` with the default configuration
(`autoCreateHistoryTables = true`): records the binding under the live
table name, then issues `CREATE TABLE IF NOT EXISTS` for the history
table, which leaves an already existing history table untouched.  The
new history table starts with auto-increment counter 1 and no rows. -/
def registerTable (s : ChronicleState) (descs : List ColDesc)
    (tableName : String) : Except ChronicleError ChronicleState :=
  let hname := tableName ++ s.suffix
  let s1 : ChronicleState :=
    { s with registered :=
        if s.registered.contains tableName then s.registered
        else s.registered ++ [tableName] }
  match createHistoryColumns descs with
  | .error e => .error e
  | .ok cols =>
    match lookupTable s1.history hname with
    | some _ => .ok s1
    | none =>
      .ok { s1 with history :=
              s1.history ++ [(hname, ⟨cols.map (·.1), 1, []⟩)] }

/-! ## History recording (`recordVersion`) -/

/-- `recordVersion`: one `INSERT` into the history table with columns
`[version_operation] ++ keys(values)`; `version_id` and
`version_created_at` are assigned by the store itself. -/
def recordVersion (s : ChronicleState) (tableName : String) (values : Row)
    (op : Operation) : Except ChronicleError ChronicleState :=
  let hname := tableName ++ s.suffix
  match lookupTable s.history hname with
  | none => .error (.noSuchTable hname)
  | some ht =>
    let hr : HistoryRow := ⟨ht.nextId, s.clock, op, values⟩
    .ok { s with
      history := setTable s.history hname
        { ht with nextId := ht.nextId + 1, rows := ht.rows ++ [hr] },
      clock := s.clock + 1 }

/-! ## Mutations -/

/-- The live row produced by `INSERT`: every schema column takes the
supplied value when present and the column's default otherwise. -/
def insertRowFor (schema : List (String × Val)) (values : Row) : Row :=
  schema.map (fun cd => (cd.1, (Row.get values cd.1).getD cd.2))

/-- `insert(tableName, values)`: registration check, `INSERT` of the
supplied columns into the live table, then `recordVersion` with the
caller-supplied map (not a re-read of the stored row). -/
def insert (s : ChronicleState) (tableName : String) (values : Row) :
    Except ChronicleError ChronicleState :=
  if s.registered.contains tableName then
    match lookupTable s.live tableName with
    | none => .error (.noSuchTable tableName)
    | some lt =>
      recordVersion
        { s with
          live :=
            setTable s.live tableName
              { lt with rows := lt.rows ++ [insertRowFor lt.schema values] } }
        tableName values .insert
  else .error (.notRegistered tableName)

/-- `update(tableName, values, where)`: registration check, `SELECT` of
the first matching live row (`Record not found` when none), `UPDATE` of
every matching row, then `recordVersion` of the spread merge
`{...current, ...values}`. -/
def update (s : ChronicleState) (tableName : String) (values : Row)
    (whereP : Row) : Except ChronicleError ChronicleState :=
  if s.registered.contains tableName then
    match lookupTable s.live tableName with
    | none => .error (.noSuchTable tableName)
    | some lt =>
      match lt.rows.find? (rowMatches whereP) with
      | none => .error .recordNotFound
      | some current =>
        recordVersion
          { s with
            live :=
              setTable s.live tableName
                { lt with rows := lt.rows.map (fun r =>
                    if rowMatches whereP r then Row.setMany r values else r) } }
          tableName (spreadMerge current values) .update
  else .error (.notRegistered tableName)

/-- `delete(tableName, where)`: registration check, `SELECT` of the
first matching live row (`Record not found` when none), `DELETE` of
every matching row, then `recordVersion` of the row's last values. -/
def delete (s : ChronicleState) (tableName : String) (whereP : Row) :
    Except ChronicleError ChronicleState :=
  if s.registered.contains tableName then
    match lookupTable s.live tableName with
    | none => .error (.noSuchTable tableName)
    | some lt =>
      match lt.rows.find? (rowMatches whereP) with
      | none => .error .recordNotFound
      | some current =>
        recordVersion
          { s with
            live :=
              setTable s.live tableName
                { lt with rows := lt.rows.filter (fun r => !(rowMatches whereP r)) } }
          tableName current .delete
  else .error (.notRegistered tableName)

/-! ## Version retrieval -/

/-- The live-derived part of a `SELECT *` over the history table for
one version: every schema column, reading `NULL` where the version did
not store the column. -/
def restoredAttrs (cols : List String) (hr : HistoryRow) : Row :=
  cols.map (fun c => (c, (Row.get hr.attrs c).getD Val.null))

/-- The row a `SELECT *` over the history table yields for one version:
the three metadata columns first (matching the created column order),
then every live-derived schema column. -/
def HistoryRow.toSelectRow (schema : List String) (hr : HistoryRow) : Row :=
  ("version_id", Val.int hr.version_id) ::
  ("version_created_at", Val.int hr.version_created_at) ::
  ("version_operation", Val.str hr.version_operation.toStr) ::
  restoredAttrs schema hr

/-- `getVersions(tableName, where)`: no registration check — the query
goes straight at `tableName + suffix`; the matching rows are returned
in ascending `version_id` order (`ORDER BY version_id ASC`). -/
def getVersions (s : ChronicleState) (tableName : String) (whereP : Row) :
    Except ChronicleError (List Row) :=
  let hname := tableName ++ s.suffix
  match lookupTable s.history hname with
  | none => .error (.noSuchTable hname)
  | some ht =>
    let matching := ht.rows.filter
      (fun hr => rowMatches whereP (hr.toSelectRow ht.liveColumns))
    let sorted := matching.insertionSort
      (fun a b => a.version_id ≤ b.version_id)
    .ok (sorted.map (fun hr => hr.toSelectRow ht.liveColumns))

/-- `getVersion(tableName, versionId)`: no registration check; the
first row holding the given `version_id`, or an absent result. -/
def getVersion (s : ChronicleState) (tableName : String) (versionId : Nat) :
    Except ChronicleError (Option Row) :=
  let hname := tableName ++ s.suffix
  match lookupTable s.history hname with
  | none => .error (.noSuchTable hname)
  | some ht =>
    .ok ((ht.rows.find? (fun hr => hr.version_id = versionId)).map
      (fun hr => hr.toSelectRow ht.liveColumns))

/-! ## Rollback -/

/-- The destructuring `const { version_id, version_created_at,
version_operation, ...data } = version`: every other column survives,
in order. -/
def stripMeta (r : Row) : Row :=
  r.filter (fun p =>
    !(p.1 = "version_id") && !(p.1 = "version_created_at") &&
    !(p.1 = "version_operation"))

/-- `rollback(tableName, {versionId, where})`: registration check, load
of the target version (`Version ... not found` when absent), strip of
the three metadata columns, then delegation to `update`. -/
def rollback (s : ChronicleState) (tableName : String) (versionId : Nat)
    (whereP : Row) : Except ChronicleError ChronicleState :=
  if s.registered.contains tableName then
    match getVersion s tableName versionId with
    | .error e => .error e
    | .ok none => .error (.versionNotFound versionId)
    | .ok (some row) => update s tableName (stripMeta row) whereP
  else .error (.notRegistered tableName)

/-! ## Store invariants -/

/-- Well-formedness of a history table: version ids strictly increase
along the stored row order (one row per recording, in call order), and
every id lies below the auto-increment counter. -/
def HistoryTable.WF (ht : HistoryTable) : Prop :=
  ht.rows.Pairwise (fun a b => a.version_id < b.version_id) ∧
  ∀ hr ∈ ht.rows, hr.version_id < ht.nextId

/-- Well-formedness of a state: every history table is well formed. -/
def ChronicleState.WF (s : ChronicleState) : Prop :=
  ∀ p ∈ s.history, HistoryTable.WF p.2

/-! ## Concrete fixtures

A two-column `users` table (`id INTEGER`, `name TEXT`) in various
states, used to instantiate the verified statements on concrete
inputs. -/

/-- The state of a freshly constructed engine over an empty store. -/
def emptyState : ChronicleState :=
  { suffix := "_history", registered := [], live := [], history := [], clock := 0 }

/-- Schema of the `users` live table: `id` with default 7 (a
store-generated value such as an identity key) and `name` without. -/
def usersSchema : List (String × Val) :=
  [("id", Val.int 7), ("name", Val.null)]

/-- Column descriptors of the `users` table as Drizzle exposes them. -/
def usersDescs : List ColDesc :=
  [⟨some "id", some "integer", none⟩, ⟨some "name", some "text", none⟩]

/-- `users` registered, one live row `(id 1, name V1)`, and a history
of two versions: the Insert of `V1` and an Update to `V2` (the live row
was later updated back, so rolling back to version 2 is observable). -/
def wState : ChronicleState :=
  { suffix := "_history",
    registered := ["users"],
    live := [("users", ⟨usersSchema, [[("id", Val.int 1), ("name", Val.str "V1")]]⟩)],
    history := [("users_history",
      ⟨["id", "name"], 3,
       [⟨1, 0, .insert, [("id", Val.int 1), ("name", Val.str "V1")]⟩,
        ⟨2, 1, .update, [("id", Val.int 1), ("name", Val.str "V2")]⟩]⟩)],
    clock := 2 }

/-- The live table of `wState`. -/
def wLive : LiveTable :=
  ⟨usersSchema, [[("id", Val.int 1), ("name", Val.str "V1")]]⟩

/-- The history table of `wState`. -/
def wHistory : HistoryTable :=
  ⟨["id", "name"], 3,
   [⟨1, 0, .insert, [("id", Val.int 1), ("name", Val.str "V1")]⟩,
    ⟨2, 1, .update, [("id", Val.int 1), ("name", Val.str "V2")]⟩]⟩

/-- `wState` with no live rows (the record was deleted; history kept). -/
def wStateDeleted : ChronicleState :=
  { wState with live := [("users", ⟨usersSchema, []⟩)] }

/-- The empty live table of `wStateDeleted`. -/
def wLiveEmpty : LiveTable := ⟨usersSchema, []⟩

end Chronicle

namespace Chronicle

theorem Row.get_nil (k : String) : Row.get [] k = none := rfl

theorem Row.get_cons (p : String × Val) (r : Row) (k : String) :
    Row.get (p :: r) k = if p.1 = k then some p.2 else Row.get r k := by
  by_cases h : p.1 = k <;> simp [Row.get, List.find?_cons, h]

theorem Row.setMany_cons (p : String × Val) (r vs : Row) :
    Row.setMany (p :: r) vs =
      (match Row.get vs p.1 with
        | some v => (p.1, v)
        | none => p) :: Row.setMany r vs := rfl

theorem restoredAttrs_cons (c : String) (cols : List String) (hr : HistoryRow) :
    restoredAttrs (c :: cols) hr =
      (c, (Row.get hr.attrs c).getD Val.null) :: restoredAttrs cols hr := rfl

theorem insertRowFor_cons (cd : String × Val) (schema : List (String × Val))
    (values : Row) :
    insertRowFor (cd :: schema) values =
      (cd.1, (Row.get values cd.1).getD cd.2) :: insertRowFor schema values := rfl

theorem Row.get_append (r₁ r₂ : Row) (k : String) :
    Row.get (r₁ ++ r₂) k = (Row.get r₁ k).or (Row.get r₂ k) := by
  induction r₁ with
  | nil => simp [Row.get_nil, Option.or]
  | cons p r ih =>
      by_cases h : p.1 = k <;> simp [Row.get_cons, h, ih, Option.or]

theorem Row.get_setMany (r vs : Row) (k : String) :
    Row.get (Row.setMany r vs) k =
      (Row.get r k).map (fun v => (Row.get vs k).getD v) := by
  induction r with
  | nil => rfl
  | cons p r ih =>
      by_cases h : p.1 = k
      · subst h
        cases hv : Row.get vs p.1 <;>
          simp [Row.setMany_cons, Row.get_cons, hv]
      · cases hv : Row.get vs p.1 <;>
          simp [Row.setMany_cons, Row.get_cons, hv, h, ih]

theorem Row.get_filterAbsent (a b : Row) (k : String) :
    Row.get (b.filter (fun p => (Row.get a p.1).isNone)) k =
      if (Row.get a k).isNone then Row.get b k else none := by
  induction b with
  | nil => simp [Row.get_nil]
  | cons q b ih =>
      by_cases hk : q.1 = k
      · subst hk
        cases ha : Row.get a q.1 <;>
          simp [List.filter_cons, ha, Row.get_cons, ih]
      · cases haq : Row.get a q.1 <;>
          simp [List.filter_cons, haq, Row.get_cons, hk, ih]

theorem Row.get_spreadMerge (a b : Row) (k : String) :
    Row.get (spreadMerge a b) k = (Row.get b k).or (Row.get a k) := by
  rw [spreadMerge, Row.get_append, Row.get_setMany, Row.get_filterAbsent]
  cases ha : Row.get a k <;> cases hb : Row.get b k <;> simp [Option.or]

theorem Row.get_restoredAttrs (cols : List String) (hr : HistoryRow) (k : String)
    (hk : k ∈ cols) :
    Row.get (restoredAttrs cols hr) k = some ((Row.get hr.attrs k).getD Val.null) := by
  induction cols with
  | nil => simp at hk
  | cons c cols ih =>
      by_cases h : c = k
      · subst h; simp [restoredAttrs_cons, Row.get_cons]
      · rcases List.mem_cons.mp hk with rfl | hk'
        · exact absurd rfl h
        · simp [restoredAttrs_cons, Row.get_cons, h, ih hk']

theorem Row.get_insertRowFor (schema : List (String × Val)) (values : Row)
    (k : String) (v : Val) (hv : Row.get values k = some v)
    (hk : k ∈ schema.map Prod.fst) :
    Row.get (insertRowFor schema values) k = some v := by
  induction schema with
  | nil => simp at hk
  | cons cd schema ih =>
      rw [List.map_cons, List.mem_cons] at hk
      by_cases h : cd.1 = k
      · subst h; simp [insertRowFor_cons, Row.get_cons, hv]
      · rcases hk with h' | hk'
        · exact absurd h'.symm h
        · simp [insertRowFor_cons, Row.get_cons, h, ih hk']

theorem Row.get_isSome_of_mem_keys (r : Row) (k : String)
    (hk : k ∈ r.map Prod.fst) : (Row.get r k).isSome := by
  induction r with
  | nil => simp at hk
  | cons p r ih =>
      rw [List.map_cons, List.mem_cons] at hk
      by_cases h : p.1 = k
      · simp [Row.get_cons, h]
      · rcases hk with h' | hk'
        · exact absurd h'.symm h
        · simp [Row.get_cons, h, ih hk']

/-! ## Store lemmas -/

theorem lookupTable_cons {α : Type} (p : String × α) (l : List (String × α))
    (n : String) :
    lookupTable (p :: l) n = if p.1 = n then some p.2 else lookupTable l n := by
  by_cases h : p.1 = n <;> simp [lookupTable, List.find?_cons, h]

theorem lookupTable_setTable_self {α : Type} (l : List (String × α))
    (n : String) (v x : α) (h : lookupTable l n = some x) :
    lookupTable (setTable l n v) n = some v := by
  induction l with
  | nil => simp [lookupTable] at h
  | cons p l ih =>
      by_cases hp : p.1 = n
      · simp [setTable, hp, lookupTable_cons]
      · rw [lookupTable_cons, if_neg hp] at h
        simpa [setTable, lookupTable_cons, hp] using ih h

theorem mem_setTable {α : Type} {l : List (String × α)} {n : String} {v : α}
    {q : String × α} (h : q ∈ setTable l n v) : q = (n, v) ∨ q ∈ l := by
  rw [setTable, List.mem_map] at h
  obtain ⟨p, hp, he⟩ := h
  by_cases hn : p.1 = n
  · rw [if_pos hn] at he; exact Or.inl he.symm
  · rw [if_neg hn] at he; exact Or.inr (he ▸ hp)

theorem lookupTable_mem {α : Type} {l : List (String × α)} {n : String} {x : α}
    (h : lookupTable l n = some x) : (n, x) ∈ l := by
  rw [lookupTable] at h
  cases hf : l.find? (fun p => p.1 = n) with
  | none => rw [hf] at h; simp at h
  | some p =>
      rw [hf] at h
      have hp := List.find?_some hf
      have hm := List.mem_of_find?_eq_some hf
      simp at h hp
      rwa [← hp, ← h, Prod.mk.eta]

/-! ## stripMeta on a select row -/

theorem stripMeta_toSelectRow (schema : List String) (hr : HistoryRow)
    (h1 : "version_id" ∉ schema) (h2 : "version_created_at" ∉ schema)
    (h3 : "version_operation" ∉ schema) :
    stripMeta (hr.toSelectRow schema) = restoredAttrs schema hr := by
  rw [HistoryRow.toSelectRow, stripMeta]
  simp only [List.filter_cons]
  norm_num
  intro a b hab
  rw [restoredAttrs, List.mem_map] at hab
  obtain ⟨c, hc, hce⟩ := hab
  injection hce with hca hcb
  subst hca
  refine ⟨⟨?_, ?_⟩, ?_⟩ <;> rintro rfl
  · exact h1 hc
  · exact h2 hc
  · exact h3 hc

/-! ## Operation unfolding lemmas -/

theorem recordVersion_eq_ok (s : ChronicleState) (tableName : String)
    (values : Row) (op : Operation) (ht : HistoryTable)
    (hht : lookupTable s.history (tableName ++ s.suffix) = some ht) :
    recordVersion s tableName values op = .ok { s with
      history := setTable s.history (tableName ++ s.suffix)
        { ht with
          nextId := ht.nextId + 1
          rows := ht.rows ++ [⟨ht.nextId, s.clock, op, values⟩] }
      clock := s.clock + 1 } := by
  simp only [recordVersion, hht]

theorem insert_eq_ok (s : ChronicleState) (tableName : String) (values : Row)
    (lt : LiveTable) (ht : HistoryTable)
    (hreg : s.registered.contains tableName = true)
    (hlt : lookupTable s.live tableName = some lt)
    (hht : lookupTable s.history (tableName ++ s.suffix) = some ht) :
    insert s tableName values = .ok { s with
      live := setTable s.live tableName
        { lt with rows := lt.rows ++ [insertRowFor lt.schema values] }
      history := setTable s.history (tableName ++ s.suffix)
        { ht with
          nextId := ht.nextId + 1
          rows := ht.rows ++ [⟨ht.nextId, s.clock, .insert, values⟩] }
      clock := s.clock + 1 } := by
  simp only [insert, hreg, if_true, hlt]
  exact recordVersion_eq_ok _ _ _ _ ht hht

theorem update_eq_ok (s : ChronicleState) (tableName : String)
    (values whereP : Row) (lt : LiveTable) (ht : HistoryTable) (current : Row)
    (hreg : s.registered.contains tableName = true)
    (hlt : lookupTable s.live tableName = some lt)
    (hht : lookupTable s.history (tableName ++ s.suffix) = some ht)
    (hcur : lt.rows.find? (rowMatches whereP) = some current) :
    update s tableName values whereP = .ok { s with
      live := setTable s.live tableName
        { lt with rows := lt.rows.map (fun r =>
            if rowMatches whereP r then Row.setMany r values else r) }
      history := setTable s.history (tableName ++ s.suffix)
        { ht with
          nextId := ht.nextId + 1
          rows := ht.rows ++ [⟨ht.nextId, s.clock, .update, spreadMerge current values⟩] }
      clock := s.clock + 1 } := by
  simp only [update, hreg, if_true, hlt, hcur]
  exact recordVersion_eq_ok _ _ _ _ ht hht

theorem delete_eq_ok (s : ChronicleState) (tableName : String) (whereP : Row)
    (lt : LiveTable) (ht : HistoryTable) (current : Row)
    (hreg : s.registered.contains tableName = true)
    (hlt : lookupTable s.live tableName = some lt)
    (hht : lookupTable s.history (tableName ++ s.suffix) = some ht)
    (hcur : lt.rows.find? (rowMatches whereP) = some current) :
    delete s tableName whereP = .ok { s with
      live := setTable s.live tableName
        { lt with rows := lt.rows.filter (fun r => !(rowMatches whereP r)) }
      history := setTable s.history (tableName ++ s.suffix)
        { ht with
          nextId := ht.nextId + 1
          rows := ht.rows ++ [⟨ht.nextId, s.clock, .delete, current⟩] }
      clock := s.clock + 1 } := by
  simp only [delete, hreg, if_true, hlt, hcur]
  exact recordVersion_eq_ok _ _ _ _ ht hht

theorem update_eq_notFound (s : ChronicleState) (tableName : String)
    (values whereP : Row) (lt : LiveTable)
    (hreg : s.registered.contains tableName = true)
    (hlt : lookupTable s.live tableName = some lt)
    (hnone : lt.rows.find? (rowMatches whereP) = none) :
    update s tableName values whereP = .error .recordNotFound := by
  simp only [update, hreg, if_true, hlt, hnone]

theorem delete_eq_notFound (s : ChronicleState) (tableName : String)
    (whereP : Row) (lt : LiveTable)
    (hreg : s.registered.contains tableName = true)
    (hlt : lookupTable s.live tableName = some lt)
    (hnone : lt.rows.find? (rowMatches whereP) = none) :
    delete s tableName whereP = .error .recordNotFound := by
  simp only [delete, hreg, if_true, hlt, hnone]

theorem insert_notRegistered (s : ChronicleState) (tableName : String)
    (values : Row) (hreg : s.registered.contains tableName = false) :
    insert s tableName values = .error (.notRegistered tableName) := by
  simp only [insert, hreg, Bool.false_eq_true, if_false]

theorem update_notRegistered (s : ChronicleState) (tableName : String)
    (values whereP : Row) (hreg : s.registered.contains tableName = false) :
    update s tableName values whereP = .error (.notRegistered tableName) := by
  simp only [update, hreg, Bool.false_eq_true, if_false]

theorem delete_notRegistered (s : ChronicleState) (tableName : String)
    (whereP : Row) (hreg : s.registered.contains tableName = false) :
    delete s tableName whereP = .error (.notRegistered tableName) := by
  simp only [delete, hreg, Bool.false_eq_true, if_false]

theorem rollback_notRegistered (s : ChronicleState) (tableName : String)
    (versionId : Nat) (whereP : Row)
    (hreg : s.registered.contains tableName = false) :
    rollback s tableName versionId whereP = .error (.notRegistered tableName) := by
  simp only [rollback, hreg, Bool.false_eq_true, if_false]

theorem getVersions_noTable (s : ChronicleState) (tableName : String)
    (whereP : Row)
    (hmiss : lookupTable s.history (tableName ++ s.suffix) = none) :
    getVersions s tableName whereP = .error (.noSuchTable (tableName ++ s.suffix)) := by
  simp only [getVersions, hmiss]

theorem getVersion_noTable (s : ChronicleState) (tableName : String)
    (versionId : Nat)
    (hmiss : lookupTable s.history (tableName ++ s.suffix) = none) :
    getVersion s tableName versionId = .error (.noSuchTable (tableName ++ s.suffix)) := by
  simp only [getVersion, hmiss]

theorem getVersion_eq_found (s : ChronicleState) (tableName : String)
    (versionId : Nat) (ht : HistoryTable) (hr : HistoryRow)
    (hht : lookupTable s.history (tableName ++ s.suffix) = some ht)
    (hfind : ht.rows.find? (fun h => h.version_id = versionId) = some hr) :
    getVersion s tableName versionId = .ok (some (hr.toSelectRow ht.liveColumns)) := by
  simp only [getVersion, hht, hfind]
  rfl

theorem getVersion_eq_none (s : ChronicleState) (tableName : String)
    (versionId : Nat) (ht : HistoryTable)
    (hht : lookupTable s.history (tableName ++ s.suffix) = some ht)
    (habs : ∀ hr ∈ ht.rows, hr.version_id ≠ versionId) :
    getVersion s tableName versionId = .ok none := by
  have hfind : ht.rows.find? (fun h => h.version_id = versionId) = none := by
    apply List.find?_eq_none.mpr
    intro hr hmem
    simpa using habs hr hmem
  simp only [getVersion, hht, hfind]
  rfl

theorem rollback_eq_update (s : ChronicleState) (tableName : String)
    (versionId : Nat) (whereP : Row) (ht : HistoryTable) (hr : HistoryRow)
    (hreg : s.registered.contains tableName = true)
    (hht : lookupTable s.history (tableName ++ s.suffix) = some ht)
    (hfind : ht.rows.find? (fun h => h.version_id = versionId) = some hr) :
    rollback s tableName versionId whereP =
      update s tableName (stripMeta (hr.toSelectRow ht.liveColumns)) whereP := by
  simp only [rollback, hreg, if_true,
    getVersion_eq_found s tableName versionId ht hr hht hfind]

theorem getVersions_eq (s : ChronicleState) (tableName : String)
    (whereP : Row) (ht : HistoryTable)
    (hht : lookupTable s.history (tableName ++ s.suffix) = some ht)
    (hWF : HistoryTable.WF ht) :
    getVersions s tableName whereP = .ok
      ((ht.rows.filter
        (fun hr => rowMatches whereP (hr.toSelectRow ht.liveColumns))).map
        (fun hr => hr.toSelectRow ht.liveColumns)) := by
  have hsorted : (ht.rows.filter
      (fun hr => rowMatches whereP (hr.toSelectRow ht.liveColumns))).Sorted
      (fun a b => a.version_id ≤ b.version_id) := by
    have hp := (hWF.1.filter
      (fun hr => rowMatches whereP (hr.toSelectRow ht.liveColumns)))
    exact hp.imp (fun h => Nat.le_of_lt h)
  simp only [getVersions, hht, hsorted.insertionSort_eq]

/-! ## Preservation of history well-formedness -/

theorem recordVersion_WF {s s' : ChronicleState} {tableName : String}
    {values : Row} {op : Operation}
    (h : recordVersion s tableName values op = .ok s')
    (hWF : ChronicleState.WF s) :
    ChronicleState.WF s' := by
  rw [recordVersion] at h
  cases hht : lookupTable s.history (tableName ++ s.suffix) with
  | none => rw [hht] at h; cases h
  | some ht =>
      rw [hht] at h
      injection h with h
      subst h
      intro p hp
      rcases mem_setTable hp with rfl | hold
      · have htWF := hWF _ (lookupTable_mem hht)
        refine ⟨?_, ?_⟩
        · rw [List.pairwise_append]
          refine ⟨htWF.1, List.pairwise_singleton _ _, ?_⟩
          intro a ha b hb
          rw [List.mem_singleton] at hb
          subst hb
          exact htWF.2 a ha
        · intro hr hmem
          rw [List.mem_append, List.mem_singleton] at hmem
          rcases hmem with hmem | rfl
          · exact Nat.lt_trans (htWF.2 hr hmem) (Nat.lt_succ_self _)
          · exact Nat.lt_succ_self _
      · exact hWF _ hold

theorem insert_WF {s s' : ChronicleState} {tableName : String} {values : Row}
    (hWF : ChronicleState.WF s) (h : insert s tableName values = .ok s') :
    ChronicleState.WF s' := by
  rw [insert] at h
  split at h
  · cases hlt : lookupTable s.live tableName with
    | none => rw [hlt] at h; exact Except.noConfusion h
    | some lt =>
        simp only [hlt] at h
        exact recordVersion_WF h (fun p hp => hWF p hp)
  · cases h

theorem update_WF {s s' : ChronicleState} {tableName : String}
    {values whereP : Row}
    (hWF : ChronicleState.WF s) (h : update s tableName values whereP = .ok s') :
    ChronicleState.WF s' := by
  rw [update] at h
  split at h
  · cases hlt : lookupTable s.live tableName with
    | none => rw [hlt] at h; exact Except.noConfusion h
    | some lt =>
        simp only [hlt] at h
        cases hcur : lt.rows.find? (rowMatches whereP) with
        | none => rw [hcur] at h; exact Except.noConfusion h
        | some current =>
            simp only [hcur] at h
            exact recordVersion_WF h (fun p hp => hWF p hp)
  · cases h

theorem delete_WF {s s' : ChronicleState} {tableName : String} {whereP : Row}
    (hWF : ChronicleState.WF s) (h : delete s tableName whereP = .ok s') :
    ChronicleState.WF s' := by
  rw [delete] at h
  split at h
  · cases hlt : lookupTable s.live tableName with
    | none => rw [hlt] at h; exact Except.noConfusion h
    | some lt =>
        simp only [hlt] at h
        cases hcur : lt.rows.find? (rowMatches whereP) with
        | none => rw [hcur] at h; exact Except.noConfusion h
        | some current =>
            simp only [hcur] at h
            exact recordVersion_WF h (fun p hp => hWF p hp)
  · cases h

theorem rollback_WF {s s' : ChronicleState} {tableName : String}
    {versionId : Nat} {whereP : Row}
    (hWF : ChronicleState.WF s)
    (h : rollback s tableName versionId whereP = .ok s') :
    ChronicleState.WF s' := by
  rw [rollback] at h
  split at h
  · cases hv : getVersion s tableName versionId with
    | error e => rw [hv] at h; exact Except.noConfusion h
    | ok o =>
        simp only [hv] at h
        cases o with
        | none => exact Except.noConfusion h
        | some row => exact update_WF hWF h
  · cases h

theorem registerTable_WF {s s' : ChronicleState} {descs : List ColDesc}
    {tableName : String}
    (hWF : ChronicleState.WF s)
    (h : registerTable s descs tableName = .ok s') :
    ChronicleState.WF s' := by
  rw [registerTable] at h
  cases hc : createHistoryColumns descs with
  | error e => rw [hc] at h; exact Except.noConfusion h
  | ok cols =>
      simp only [hc] at h
      split at h
      · injection h with h
        subst h
        exact fun p hp => hWF p hp
      · injection h with h
        subst h
        intro p hp
        rw [List.mem_append, List.mem_singleton] at hp
        rcases hp with hp | rfl
        · exact hWF p hp
        · exact ⟨List.Pairwise.nil, by intro hr hmem; cases hmem⟩

/-! ## Schema derivation lemmas -/

theorem createHistoryColumns_eq (descs : List ColDesc) :
    createHistoryColumns descs =
      .ok ((descs.filter (fun c => c.name.isSome)).map
        (fun d => (d.name.getD "", colSqliteType d))) := by
  induction descs with
  | nil => rfl
  | cons d descs ih =>
      cases hn : d.name with
      | none =>
          simp only [createHistoryColumns, List.filter_cons, hn,
            Option.isSome_none, Bool.false_eq_true, if_false] at ih ⊢
          exact ih
      | some n =>
          simp only [createHistoryColumns, List.filter_cons, hn,
            Option.isSome_some, if_true, List.mapM_cons, List.map_cons] at ih ⊢
          rw [ih]
          rfl

/-! ## Claims -/

/-- C3 counterexample: the claim places the live columns first and
the three metadata columns last.  The generated `CREATE TABLE` statement
does the opposite: for the two-column `users` table, the derived history
column list starts with `version_id`, `version_created_at`,
`version_operation` and only then lists `id` and `name`, so it differs
from the spec-ordered list. -/
theorem C3_history_columns_cex :
    historyColumnDefs usersDescs =
      .ok [("version_id", SqlColType.idAutoIncrement),
           ("version_created_at", SqlColType.timestampNow),
           ("version_operation", SqlColType.operationEnum),
           ("id", SqlColType.integer), ("name", SqlColType.text)] ∧
    historyColumnDefs usersDescs ≠ specHistoryColumnDefs usersDescs := by
  refine ⟨rfl, fun h => ?_⟩
  have h1 : historyColumnDefs usersDescs =
      .ok [("version_id", SqlColType.idAutoIncrement),
           ("version_created_at", SqlColType.timestampNow),
           ("version_operation", SqlColType.operationEnum),
           ("id", SqlColType.integer), ("name", SqlColType.text)] := rfl
  have h2 : specHistoryColumnDefs usersDescs =
      .ok [("id", SqlColType.integer), ("name", SqlColType.text),
           ("version_id", SqlColType.idAutoIncrement),
           ("version_created_at", SqlColType.timestampNow),
           ("version_operation", SqlColType.operationEnum)] := rfl
  rw [h1, h2] at h
  injection h with h
  exact absurd h (by decide)

/-- C3 amended: for every registered live table whose descriptors
all carry a name, the created history relation's columns are the three
fixed metadata columns `version_id` (integer auto-increment primary
key), `version_created_at` (timestamp), `version_operation` (enumerated
Insert/Update/Delete) — in that order and first — followed by the live
table's columns in their declared order. -/
theorem C3_history_columns (descs : List ColDesc)
    (hnames : ∀ d ∈ descs, d.name.isSome) :
    historyColumnDefs descs =
      .ok (metadataColumnDefs ++
        descs.map (fun d => (d.name.getD "", colSqliteType d))) := by
  rw [historyColumnDefs, createHistoryColumns_eq,
    List.filter_eq_self.mpr hnames]
  rfl

/-- Witness for `C3_history_columns` at the concrete `users` table. -/
theorem C3_history_columns_witness :
    historyColumnDefs usersDescs =
      .ok (metadataColumnDefs ++
        usersDescs.map (fun d => (d.name.getD "", colSqliteType d))) :=
  C3_history_columns usersDescs (by decide)

/-- C9: the claim (and the spec) say a nameless column descriptor
fails registration with `ConfigurationError`.  The code instead filters
nameless properties out before the validation map, so the `Invalid
column definition` throw is unreachable: a table consisting of one
nameless descriptor derives an empty column list without error, and
schema derivation never returns an error at all. -/
theorem C9_nameless_descriptor_skipped :
    createHistoryColumns [⟨none, none, none⟩] = .ok [] ∧
    ∀ descs : List ColDesc, ∃ cols, createHistoryColumns descs = .ok cols :=
  ⟨rfl, fun descs => ⟨_, createHistoryColumns_eq descs⟩⟩

/-- C8 counterexample: the claim says every query against a
never-registered table name fails with `NotRegisteredError`.
`getVersions` performs no registration check: on a fresh engine it goes
straight to the missing history table and surfaces the storage layer's
missing-table error instead. -/
theorem C8_query_unregistered_cex :
    getVersions emptyState "users" [("id", Val.int 1)] =
      .error (.noSuchTable "users_history") ∧
    ChronicleError.noSuchTable "users_history" ≠
      ChronicleError.notRegistered "users" :=
  ⟨rfl, by decide⟩

/-- C8 amended: every mutation (insert, update, delete) and
rollback against a never-registered table name fails with
`NotRegisteredError`; the queries `getVersions` and `getVersion` perform
no registration check and instead surface the storage layer's
missing-table error for the derived history table name (they would read
an existing table of that name without complaint). -/
theorem C8_unregistered (s : ChronicleState) (tableName : String)
    (values whereP : Row) (versionId : Nat)
    (hreg : s.registered.contains tableName = false)
    (hmiss : lookupTable s.history (tableName ++ s.suffix) = none) :
    insert s tableName values = .error (.notRegistered tableName) ∧
    update s tableName values whereP = .error (.notRegistered tableName) ∧
    delete s tableName whereP = .error (.notRegistered tableName) ∧
    rollback s tableName versionId whereP = .error (.notRegistered tableName) ∧
    getVersions s tableName whereP =
      .error (.noSuchTable (tableName ++ s.suffix)) ∧
    getVersion s tableName versionId =
      .error (.noSuchTable (tableName ++ s.suffix)) :=
  ⟨insert_notRegistered _ _ _ hreg, update_notRegistered _ _ _ _ hreg,
   delete_notRegistered _ _ _ hreg, rollback_notRegistered _ _ _ _ hreg,
   getVersions_noTable _ _ _ hmiss, getVersion_noTable _ _ _ hmiss⟩

/-- Witness for `C8_unregistered` on a fresh engine. -/
theorem C8_unregistered_witness :
    insert emptyState "users" [("name", Val.str "A")] =
      .error (.notRegistered "users") ∧
    update emptyState "users" [("name", Val.str "A")] [("id", Val.int 1)] =
      .error (.notRegistered "users") ∧
    delete emptyState "users" [("id", Val.int 1)] =
      .error (.notRegistered "users") ∧
    rollback emptyState "users" 5 [("id", Val.int 1)] =
      .error (.notRegistered "users") ∧
    getVersions emptyState "users" [("id", Val.int 1)] =
      .error (.noSuchTable ("users" ++ "_history")) ∧
    getVersion emptyState "users" 5 =
      .error (.noSuchTable ("users" ++ "_history")) :=
  C8_unregistered emptyState "users" [("name", Val.str "A")]
    [("id", Val.int 1)] 5 rfl rfl

/-- C2: for every registered table (with its live and history
relations present in the store, and statements well formed: non-empty
maps over schema columns), `update(name, partialValueMap, predicate)`
fails with `RecordNotFoundError` when no live row matches the predicate;
when a live row matches, it writes the update and appends exactly one
new version — the previous rows unchanged, the counter advanced by
one — with operation Update whose attributes equal the pre-update row
spread-merged with the partial map, the new values winning on every
overlapping key. -/
theorem C2_update_spec (s : ChronicleState) (tableName : String)
    (values whereP : Row) (lt : LiveTable) (ht : HistoryTable)
    (hreg : s.registered.contains tableName = true)
    (hlt : lookupTable s.live tableName = some lt)
    (hht : lookupTable s.history (tableName ++ s.suffix) = some ht)
    ( _hvne : values ≠ []) ( _hwne : whereP ≠ [])
    ( _hvk : ∀ p ∈ values, p.1 ∈ lt.schema.map Prod.fst)
    ( _hwk : ∀ p ∈ whereP, p.1 ∈ lt.schema.map Prod.fst) :
    (lt.rows.find? (rowMatches whereP) = none →
      update s tableName values whereP = .error .recordNotFound) ∧
    (∀ current, lt.rows.find? (rowMatches whereP) = some current →
      update s tableName values whereP = .ok { s with
        live := setTable s.live tableName
          { lt with rows := lt.rows.map (fun r =>
              if rowMatches whereP r then Row.setMany r values else r) }
        history := setTable s.history (tableName ++ s.suffix)
          { ht with
            nextId := ht.nextId + 1
            rows := ht.rows ++
              [⟨ht.nextId, s.clock, .update, spreadMerge current values⟩] }
        clock := s.clock + 1 } ∧
      (∀ k, Row.get (spreadMerge current values) k =
        (Row.get values k).or (Row.get current k))) := by
  refine ⟨fun hnone => update_eq_notFound s tableName values whereP lt hreg hlt hnone,
    fun current hcur => ⟨?_, fun k => Row.get_spreadMerge current values k⟩⟩
  exact update_eq_ok s tableName values whereP lt ht current hreg hlt hht hcur

/-- Witness for `C2_update_spec`: updating `name` of user 1 in `wState`
appends version 3 with the merged row `(id 1, name V9)`. -/
theorem C2_update_spec_witness :
    update wState "users" [("name", Val.str "V9")] [("id", Val.int 1)] =
      .ok { wState with
        live := setTable wState.live "users"
          { wLive with rows := wLive.rows.map (fun r =>
              if rowMatches [("id", Val.int 1)] r
              then Row.setMany r [("name", Val.str "V9")] else r) }
        history := setTable wState.history "users_history"
          { wHistory with
            nextId := 4
            rows := wHistory.rows ++
              [⟨3, 2, .update,
                spreadMerge [("id", Val.int 1), ("name", Val.str "V1")]
                  [("name", Val.str "V9")]⟩] }
        clock := 3 } :=
  ((C2_update_spec wState "users" [("name", Val.str "V9")] [("id", Val.int 1)]
      wLive wHistory rfl rfl rfl (by decide) (by decide) (by decide)
      (by decide)).2
    [("id", Val.int 1), ("name", Val.str "V1")] rfl).1

/-- C5: for every registered table (relations present, non-empty
value map over schema columns), `insert(name, valueMap)` writes the
supplied columns to the live relation — the store filling every other
schema column with its default — and appends exactly one version with
operation Insert whose attributes are the caller-supplied `valueMap`
itself, not a re-read of the stored row: a store-generated default
absent from `valueMap` appears in the live row but not in the recorded
version. -/
theorem C5_insert_spec (s : ChronicleState) (tableName : String)
    (values : Row) (lt : LiveTable) (ht : HistoryTable)
    (hreg : s.registered.contains tableName = true)
    (hlt : lookupTable s.live tableName = some lt)
    (hht : lookupTable s.history (tableName ++ s.suffix) = some ht)
    ( _hvne : values ≠ [])
    ( _hvk : ∀ p ∈ values, p.1 ∈ lt.schema.map Prod.fst) :
    insert s tableName values = .ok { s with
      live := setTable s.live tableName
        { lt with rows := lt.rows ++ [insertRowFor lt.schema values] }
      history := setTable s.history (tableName ++ s.suffix)
        { ht with
          nextId := ht.nextId + 1
          rows := ht.rows ++ [⟨ht.nextId, s.clock, .insert, values⟩] }
      clock := s.clock + 1 } ∧
    (∀ k v, Row.get values k = some v → k ∈ lt.schema.map Prod.fst →
      Row.get (insertRowFor lt.schema values) k = some v) ∧
    (∀ k, Row.get values k = none →
      Row.get (⟨ht.nextId, s.clock, .insert, values⟩ : HistoryRow).attrs k = none) :=
  ⟨insert_eq_ok s tableName values lt ht hreg hlt hht,
   fun k v hv hk => Row.get_insertRowFor lt.schema values k v hv hk,
   fun _ hk => hk⟩

/-- Witness for `C5_insert_spec`: inserting only `name = B` into the
deleted-users state stores a live row whose `id` takes the
store-generated default 7, while the recorded Insert version carries
only `name` — `id` is absent from its attributes. -/
theorem C5_insert_spec_witness :
    insert wStateDeleted "users" [("name", Val.str "B")] =
      .ok { wStateDeleted with
        live := setTable wStateDeleted.live "users"
          { wLiveEmpty with rows :=
              [insertRowFor usersSchema [("name", Val.str "B")]] }
        history := setTable wStateDeleted.history "users_history"
          { wHistory with
            nextId := 4
            rows := wHistory.rows ++
              [⟨3, 2, .insert, [("name", Val.str "B")]⟩] }
        clock := 3 } ∧
    Row.get (insertRowFor usersSchema [("name", Val.str "B")]) "id" =
      some (Val.int 7) ∧
    Row.get ([("name", Val.str "B")] : Row) "id" = none :=
  ⟨(C5_insert_spec wStateDeleted "users" [("name", Val.str "B")]
      wLiveEmpty wHistory rfl rfl rfl (by decide) (by decide)).1,
   rfl, rfl⟩

theorem find?_filter_not (l : List Row) (p : Row → Bool) :
    (l.filter (fun r => !(p r))).find? p = none := by
  apply List.find?_eq_none.mpr
  intro r hrr
  rw [List.mem_filter] at hrr
  simpa using hrr.2

/-- C4: for every registered table, delete fails with RecordNotFound
when no live row matches; otherwise it removes the matching row,
appends exactly one Delete version carrying the row's last live values,
and afterwards update and delete with the same predicate fail with
RecordNotFound. -/
theorem C4_delete_spec (s : ChronicleState) (tableName : String)
    (whereP : Row) (lt : LiveTable) (ht : HistoryTable)
    (hreg : s.registered.contains tableName = true)
    (hlt : lookupTable s.live tableName = some lt)
    (hht : lookupTable s.history (tableName ++ s.suffix) = some ht)
    ( _hwne : whereP ≠ [])
    ( _hwk : ∀ p ∈ whereP, p.1 ∈ lt.schema.map Prod.fst) :
    (lt.rows.find? (rowMatches whereP) = none →
      delete s tableName whereP = .error .recordNotFound) ∧
    (∀ current, lt.rows.find? (rowMatches whereP) = some current →
      delete s tableName whereP = .ok { s with
        live := setTable s.live tableName
          { lt with rows := lt.rows.filter (fun r => !(rowMatches whereP r)) }
        history := setTable s.history (tableName ++ s.suffix)
          { ht with
            nextId := ht.nextId + 1
            rows := ht.rows ++ [⟨ht.nextId, s.clock, .delete, current⟩] }
        clock := s.clock + 1 } ∧
      (∀ s', delete s tableName whereP = .ok s' →
        (∀ values', update s' tableName values' whereP = .error .recordNotFound) ∧
        delete s' tableName whereP = .error .recordNotFound)) := by
  refine ⟨fun hnone => delete_eq_notFound s tableName whereP lt hreg hlt hnone,
    fun current hcur => ⟨delete_eq_ok s tableName whereP lt ht current hreg hlt hht hcur,
      fun s' hs' => ?_⟩⟩
  rw [delete_eq_ok s tableName whereP lt ht current hreg hlt hht hcur] at hs'
  injection hs' with hs'
  subst hs'
  have hlt' := lookupTable_setTable_self s.live tableName
    { lt with rows := lt.rows.filter (fun r => !(rowMatches whereP r)) } lt hlt
  have hfind' := find?_filter_not lt.rows (rowMatches whereP)
  exact ⟨fun values' => update_eq_notFound _ _ _ _ _ hreg hlt' hfind',
    delete_eq_notFound _ _ _ _ hreg hlt' hfind'⟩

/-- Witness for C4_delete_spec: deleting user 1 from wState empties the
live table, appends the Delete version of the last live values, and a
subsequent update on the predicate fails with RecordNotFound. -/
theorem C4_delete_spec_witness :
    delete wState "users" [("id", Val.int 1)] = .ok { wState with
      live := setTable wState.live "users"
        { wLive with
          rows := wLive.rows.filter
            (fun r => !(rowMatches [("id", Val.int 1)] r)) }
      history := setTable wState.history "users_history"
        { wHistory with
          nextId := 4
          rows := wHistory.rows ++
            [⟨3, 2, .delete, [("id", Val.int 1), ("name", Val.str "V1")]⟩] }
      clock := 3 } ∧
    update { wState with
      live := setTable wState.live "users"
        { wLive with
          rows := wLive.rows.filter
            (fun r => !(rowMatches [("id", Val.int 1)] r)) }
      history := setTable wState.history "users_history"
        { wHistory with
          nextId := 4
          rows := wHistory.rows ++
            [⟨3, 2, .delete, [("id", Val.int 1), ("name", Val.str "V1")]⟩] }
      clock := 3 } "users" [("name", Val.str "X")] [("id", Val.int 1)] =
      .error .recordNotFound := by
  have h := (C4_delete_spec wState "users" [("id", Val.int 1)] wLive wHistory
    rfl rfl rfl (by decide) (by decide)).2
    [("id", Val.int 1), ("name", Val.str "V1")] rfl
  exact ⟨h.1, (h.2 _ h.1).1 [("name", Val.str "X")]⟩

/-- C7: rollback to a version id absent from the history table fails
with VersionNotFound and performs no write (the error is raised before
any mutation statement), while getVersion for the same id returns an
absent result without raising. -/
theorem C7_rollback_version_missing (s : ChronicleState) (tableName : String)
    (versionId : Nat) (whereP : Row) (ht : HistoryTable)
    (hreg : s.registered.contains tableName = true)
    (hht : lookupTable s.history (tableName ++ s.suffix) = some ht)
    (habs : ∀ hr ∈ ht.rows, hr.version_id ≠ versionId) :
    rollback s tableName versionId whereP =
      .error (.versionNotFound versionId) ∧
    getVersion s tableName versionId = .ok none := by
  have hg := getVersion_eq_none s tableName versionId ht hht habs
  refine ⟨?_, hg⟩
  simp only [rollback, hreg, if_true, hg]

/-- Witness for C7_rollback_version_missing at the never-assigned id 99. -/
theorem C7_rollback_version_missing_witness :
    rollback wState "users" 99 [("id", Val.int 1)] =
      .error (.versionNotFound 99) ∧
    getVersion wState "users" 99 = .ok none :=
  C7_rollback_version_missing wState "users" 99 [("id", Val.int 1)]
    wHistory rfl rfl (by decide)

/-- C10: when the rollback target version exists but the predicate
matches no live row, rollback fails with RecordNotFound — raised inside
the delegated update before any write, so no history row is appended
and the live table is unchanged. -/
theorem C10_rollback_no_live_row (s : ChronicleState) (tableName : String)
    (versionId : Nat) (whereP : Row) (lt : LiveTable) (ht : HistoryTable)
    (hr : HistoryRow)
    (hreg : s.registered.contains tableName = true)
    (hht : lookupTable s.history (tableName ++ s.suffix) = some ht)
    (hfind : ht.rows.find? (fun h => h.version_id = versionId) = some hr)
    (hlt : lookupTable s.live tableName = some lt)
    (hnone : lt.rows.find? (rowMatches whereP) = none) :
    rollback s tableName versionId whereP = .error .recordNotFound := by
  rw [rollback_eq_update s tableName versionId whereP ht hr hreg hht hfind]
  exact update_eq_notFound s tableName _ whereP lt hreg hlt hnone

/-- Witness for C10_rollback_no_live_row: rolling back to the existing
version 2 after the row was deleted fails with RecordNotFound. -/
theorem C10_rollback_no_live_row_witness :
    rollback wStateDeleted "users" 2 [("id", Val.int 1)] =
      .error .recordNotFound :=
  C10_rollback_no_live_row wStateDeleted "users" 2 [("id", Val.int 1)]
    wLiveEmpty wHistory
    ⟨2, 1, .update, [("id", Val.int 1), ("name", Val.str "V2")]⟩
    rfl rfl rfl rfl rfl

/-- C1: successful rollback strips exactly the three metadata columns
from the target version, delegates to update with the resulting
attribute map, makes every matching live row's attributes equal the
version's stored attributes, and appends exactly one new Update
version — the existing version rows unchanged, the counter advanced by
one. -/
theorem C1_rollback_spec (s : ChronicleState) (tableName : String)
    (versionId : Nat) (whereP : Row) (lt : LiveTable) (ht : HistoryTable)
    (hr : HistoryRow) (current : Row)
    (hreg : s.registered.contains tableName = true)
    (hht : lookupTable s.history (tableName ++ s.suffix) = some ht)
    (hfind : ht.rows.find? (fun h => h.version_id = versionId) = some hr)
    (hlt : lookupTable s.live tableName = some lt)
    (hcur : lt.rows.find? (rowMatches whereP) = some current)
    (hm1 : "version_id" ∉ ht.liveColumns)
    (hm2 : "version_created_at" ∉ ht.liveColumns)
    (hm3 : "version_operation" ∉ ht.liveColumns)
    ( _hwne : whereP ≠ [])
    ( _hwk : ∀ p ∈ whereP, p.1 ∈ lt.schema.map Prod.fst) :
    stripMeta (hr.toSelectRow ht.liveColumns) = restoredAttrs ht.liveColumns hr ∧
    rollback s tableName versionId whereP =
      update s tableName (restoredAttrs ht.liveColumns hr) whereP ∧
    rollback s tableName versionId whereP = .ok { s with
      live := setTable s.live tableName
        { lt with rows := lt.rows.map (fun r =>
            if rowMatches whereP r
            then Row.setMany r (restoredAttrs ht.liveColumns hr) else r) }
      history := setTable s.history (tableName ++ s.suffix)
        { ht with
          nextId := ht.nextId + 1
          rows := ht.rows ++ [⟨ht.nextId, s.clock, .update,
            spreadMerge current (restoredAttrs ht.liveColumns hr)⟩] }
      clock := s.clock + 1 } ∧
    (∀ r, r.map Prod.fst = ht.liveColumns →
      ∀ c ∈ ht.liveColumns,
        Row.get (Row.setMany r (restoredAttrs ht.liveColumns hr)) c =
          some ((Row.get hr.attrs c).getD Val.null)) := by
  have hstrip := stripMeta_toSelectRow ht.liveColumns hr hm1 hm2 hm3
  have hdel : rollback s tableName versionId whereP =
      update s tableName (restoredAttrs ht.liveColumns hr) whereP := by
    rw [rollback_eq_update s tableName versionId whereP ht hr hreg hht hfind,
      hstrip]
  refine ⟨hstrip, hdel, ?_, ?_⟩
  · rw [hdel]
    exact update_eq_ok s tableName _ whereP lt ht current hreg hlt hht hcur
  · intro r hrk c hc
    rw [Row.get_setMany, Row.get_restoredAttrs ht.liveColumns hr c hc]
    have hsome : (Row.get r c).isSome :=
      Row.get_isSome_of_mem_keys r c (by rw [hrk]; exact hc)
    cases hrc : Row.get r c with
    | none => rw [hrc] at hsome; cases hsome
    | some v => simp

/-- Witness for C1_rollback_spec: rolling wState back to version 2
updates the live row to name V2 and appends version 3 as a new Update
entry, leaving versions 1 and 2 untouched. -/
theorem C1_rollback_spec_witness :
    rollback wState "users" 2 [("id", Val.int 1)] = .ok { wState with
      live := setTable wState.live "users"
        { wLive with
          rows := wLive.rows.map (fun r =>
            if rowMatches [("id", Val.int 1)] r
            then Row.setMany r (restoredAttrs ["id", "name"]
              ⟨2, 1, .update, [("id", Val.int 1), ("name", Val.str "V2")]⟩)
            else r) }
      history := setTable wState.history "users_history"
        { wHistory with
          nextId := 4
          rows := wHistory.rows ++ [⟨3, 2, .update,
            spreadMerge [("id", Val.int 1), ("name", Val.str "V1")]
              (restoredAttrs ["id", "name"]
                ⟨2, 1, .update, [("id", Val.int 1), ("name", Val.str "V2")]⟩)⟩] }
      clock := 3 } ∧
    Row.get (Row.setMany [("id", Val.int 1), ("name", Val.str "V1")]
      (restoredAttrs ["id", "name"]
        ⟨2, 1, .update, [("id", Val.int 1), ("name", Val.str "V2")]⟩)) "name" =
      some (Val.str "V2") := by
  have h := C1_rollback_spec wState "users" 2 [("id", Val.int 1)]
    wLive wHistory
    ⟨2, 1, .update, [("id", Val.int 1), ("name", Val.str "V2")]⟩
    [("id", Val.int 1), ("name", Val.str "V1")]
    rfl rfl rfl rfl rfl (by decide) (by decide) (by decide) (by decide)
    (by decide)
  exact ⟨h.2.2.1, h.2.2.2 [("id", Val.int 1), ("name", Val.str "V1")] rfl
    "name" (by decide)⟩

/-- C6: getVersions returns exactly the history rows matching the
predicate, in stored order — strictly increasing version id, the order
the recordings were appended — and an empty list rather than an error
when no row matches. -/
theorem C6_getVersions_spec (s : ChronicleState) (tableName : String)
    (whereP : Row) (ht : HistoryTable)
    (hht : lookupTable s.history (tableName ++ s.suffix) = some ht)
    (hWF : HistoryTable.WF ht)
    ( _hwne : whereP ≠ [])
    ( _hwk : ∀ p ∈ whereP, p.1 ∈ "version_id" :: "version_created_at" ::
      "version_operation" :: ht.liveColumns) :
    getVersions s tableName whereP = .ok
      ((ht.rows.filter
        (fun h => rowMatches whereP (h.toSelectRow ht.liveColumns))).map
        (fun h => h.toSelectRow ht.liveColumns)) ∧
    (ht.rows.filter
      (fun h => rowMatches whereP (h.toSelectRow ht.liveColumns))).Pairwise
      (fun a b => a.version_id < b.version_id) ∧
    ((∀ h ∈ ht.rows, ¬ rowMatches whereP (h.toSelectRow ht.liveColumns)) →
      getVersions s tableName whereP = .ok []) := by
  have heq := getVersions_eq s tableName whereP ht hht hWF
  refine ⟨heq, hWF.1.filter _, fun hnone => ?_⟩
  rw [heq, List.filter_eq_nil_iff.mpr hnone]
  rfl

/-- Witness for C6_getVersions_spec: the two versions of user 1 in
wState come back in order 1, 2; the predicate id 2 matches none and
yields the empty list. -/
theorem C6_getVersions_spec_witness :
    getVersions wState "users" [("id", Val.int 1)] = .ok
      ((wHistory.rows.filter
        (fun h => rowMatches [("id", Val.int 1)]
          (h.toSelectRow wHistory.liveColumns))).map
        (fun h => h.toSelectRow wHistory.liveColumns)) ∧
    (wHistory.rows.filter
      (fun h => rowMatches [("id", Val.int 1)]
        (h.toSelectRow wHistory.liveColumns))).Pairwise
      (fun a b => a.version_id < b.version_id) :=
  ⟨(C6_getVersions_spec wState "users" [("id", Val.int 1)] wHistory
      rfl (by constructor <;> decide) (by decide) (by decide)).1,
   (C6_getVersions_spec wState "users" [("id", Val.int 1)] wHistory
      rfl (by constructor <;> decide) (by decide) (by decide)).2.1⟩

end Chronicle
